import Mathlib

/-!
Verification of `compute_std.py` (readiness-deletion-times/custom-startup-times).

The script reads a text file line by line, skips blank lines and lines
beginning with the markers "Iteration", "Average Batch" or "Final Average",
splits the remaining lines on commas, parses field index 3 with Python's
`float`, collects the parsed samples in file order, and prints mean,
sample standard deviation (ddof = 1), min and max.

The embedding below models:
  * Python `str.strip` / `str.startswith` / `str.split(",")` as structural
    functions on character lists (ASCII whitespace);
  * Python `float(str)` — optional sign, `inf`/`infinity`/`nan`
    case-insensitively, decimal and exponent forms, PEP 515 underscores,
    surrounding whitespace — returning a `PyVal` so that non-finite
    parses are kept in the sample sequence, and `none` for `ValueError`;
  * the line loop of `read_batch_readiness_times` with its `values`
    accumulator;
  * `main` as a function of the argument vector and a file-system map,
    returning one of the four observable outcomes;
  * the statistics of `main` over exact rationals: `np.mean`, the square
    of `np.std(values, ddof=1)` (with `none` modelling the NaN produced
    when the divisor n − 1 is zero), `np.min`, `np.max`.
-/

namespace ComputeStd

/-- Result of Python `float(...)`: a finite rational, `inf`, `-inf` or `nan`. -/
inductive PyVal where
  | finite (q : ℚ)
  | inf
  | negInf
  | nan
  deriving DecidableEq, Repr

/-- ASCII whitespace stripped by Python `str.strip()` / `float()`. -/
def isPySpace (c : Char) : Bool :=
  c = ' ' || c = '\t' || c = '\n' || c = '\x0b' || c = '\x0c' || c = '\r'

/-- Python `str.strip()` on a character list. -/
def stripChars (cs : List Char) : List Char :=
  ((cs.dropWhile isPySpace).reverse.dropWhile isPySpace).reverse

/-- Python `s.startswith(marker)` on character lists (string first,
marker second). -/
def startsWithChars : List Char → List Char → Bool
  | _, [] => true
  | [], _ :: _ => false
  | c :: cs, p :: ps => c = p && startsWithChars cs ps

/-- Python `str.split(sep)` for a one-character separator: always returns
at least one (possibly empty) piece, and empty pieces between adjacent
separators. -/
def splitOnChar (sep : Char) : List Char → List (List Char)
  | [] => [[]]
  | c :: rest =>
    let r := splitOnChar sep rest
    if c = sep then [] :: r
    else (c :: r.headD []) :: r.tail

/-- Python `line.split(",")`. -/
def splitComma (cs : List Char) : List (List Char) :=
  splitOnChar ',' cs

/-- PEP 515: every underscore in a numeric literal must sit between two
digits.  Scans with the previous character at hand. -/
def underscoresOKAux : Option Char → List Char → Bool
  | _, [] => true
  | prev, c :: rest =>
    if c = '_' then
      (match prev with
       | some p => p.isDigit
       | none => false) &&
      (match rest with
       | d :: _ => d.isDigit
       | [] => false) &&
      underscoresOKAux (some c) rest
    else underscoresOKAux (some c) rest

def underscoresOK (cs : List Char) : Bool :=
  underscoresOKAux none cs

/-- Consume a maximal run of decimal digits, extending the accumulated
value and digit count; returns (value, digit count, rest). -/
def takeDigits : List Char → Nat → Nat → Nat × Nat × List Char
  | c :: rest, acc, cnt =>
    if c.isDigit then takeDigits rest (acc * 10 + (c.toNat - 48)) (cnt + 1)
    else (acc, cnt, c :: rest)
  | [], acc, cnt => (acc, cnt, [])

/-- Optional sign: `true` when the value is to be negated, with the rest. -/
def takeSign : List Char → Bool × List Char
  | '+' :: rest => (false, rest)
  | '-' :: rest => (true, rest)
  | cs => (false, cs)

/-- Exponent part of a float literal applied to a mantissa: empty input
returns the mantissa, `e` / optional sign / digits scales by a power of
ten, anything else fails.  Input is already lower-cased. -/
def applyExponent (cs : List Char) (mant : ℚ) : Option ℚ :=
  match cs with
  | [] => some mant
  | c :: rest =>
    if c = 'e' then
      let (eneg, r2) := takeSign rest
      let (ev, ec, r3) := takeDigits r2 0 0
      if ec = 0 then none
      else if r3 ≠ [] then none
      else if eneg then some (mant / ((10 ^ ev : ℕ) : ℚ))
      else some (mant * ((10 ^ ev : ℕ) : ℚ))
    else none

/-- Decimal number grammar of Python floats (underscores already removed,
already lower-cased): digits, optional point and fraction digits,
optional exponent, with at least one mantissa digit; `1.`, `.5` and
`1.e3` are all accepted. -/
def parseDecimal (cs : List Char) : Option ℚ :=
  let (ip, ic, r1) := takeDigits cs 0 0
  match r1 with
  | '.' :: r2 =>
    let (fp, fc, r3) := takeDigits r2 0 0
    if ic + fc = 0 then none
    else applyExponent r3 (((ip * 10 ^ fc + fp : ℕ) : ℚ) / ((10 ^ fc : ℕ) : ℚ))
  | _ =>
    if ic = 0 then none
    else applyExponent r1 ((ip : ℕ) : ℚ)

/-- Model of Python `float(s)` on the characters of `s`: strip
whitespace, validate underscores, drop them, lower-case, take an
optional sign, then accept `inf`/`infinity`/`nan` or a decimal literal.
`none` models `ValueError`. -/
def pyFloatChars (cs : List Char) : Option PyVal :=
  let cs0 := stripChars cs
  if underscoresOK cs0 then
    let cs1 := (cs0.filter (fun c => c ≠ '_')).map Char.toLower
    let (neg, cs2) := takeSign cs1
    if cs2 = ['i', 'n', 'f'] ∨ cs2 = ['i', 'n', 'f', 'i', 'n', 'i', 't', 'y'] then
      some (if neg then PyVal.negInf else PyVal.inf)
    else if cs2 = ['n', 'a', 'n'] then
      some PyVal.nan
    else
      match parseDecimal cs2 with
      | some q => some (PyVal.finite (if neg then -q else q))
      | none => none
  else none

/-- Python `float(s)`. -/
def pyFloat (s : String) : Option PyVal :=
  pyFloatChars s.data

/-- The body of the line loop of `read_batch_readiness_times`: the sample
contributed by one line, if any.  Mirrors the source: strip, skip blank
lines and lines starting with a marker, split on commas, require at
least 4 fields, parse field index 3 with `float` (a failed parse
contributes nothing). -/
def sampleOfLine (line : String) : Option PyVal :=
  let l := stripChars line.data
  if l = [] || startsWithChars l "Iteration".data then none
  else if startsWithChars l "Average Batch".data ||
          startsWithChars l "Final Average".data then none
  else
    let parts := splitComma l
    if parts.length < 4 then none
    else pyFloatChars (parts.getD 3 [])

/-- The `for line in f` loop of the source with its `values` accumulator. -/
def readLoop : List String → List PyVal → List PyVal
  | [], values => values
  | line :: rest, values =>
    match sampleOfLine line with
    | some v => readLoop rest (values ++ [v])
    | none => readLoop rest values

/-- `read_batch_readiness_times`, with the file contents given as its
list of lines. -/
def read_batch_readiness_times (lines : List String) : List PyVal :=
  readLoop lines []

/-- Python text-file iteration: the newline-separated lines of a string,
a final newline not producing an empty trailing line (each yielded
line's terminator is dropped; the source strips it anyway). -/
def pyLines (s : String) : List String :=
  let ps := (splitOnChar '\n' s.data).map String.mk
  if ps.getLast? = some "" then ps.dropLast else ps

/-- `np.mean` over exact rationals. -/
def npMean (xs : List ℚ) : ℚ :=
  xs.sum / (xs.length : ℚ)

/-- The square of `np.std(xs, ddof=1)` over exact rationals: the sum of
squared deviations from the mean divided by n − 1.  `none` models the
NaN that numpy produces when the divisor n − 1 is not positive. -/
def npVarDdof1 (xs : List ℚ) : Option ℚ :=
  if 2 ≤ xs.length then
    some (((xs.map (fun x => (x - npMean xs) ^ 2)).sum) / ((xs.length : ℚ) - 1))
  else none

/-- `np.min` over exact rationals (`none` on the empty array). -/
def npMin : List ℚ → Option ℚ
  | [] => none
  | x :: xs => some (xs.foldl min x)

/-- `np.max` over exact rationals (`none` on the empty array). -/
def npMax : List ℚ → Option ℚ
  | [] => none
  | x :: xs => some (xs.foldl max x)

/-- Extract the rational of a finite sample. -/
def toRat : PyVal → Option ℚ
  | PyVal.finite q => some q
  | _ => none

/-- All samples finite, as rationals (`none` when some sample is
`inf`, `-inf` or `nan`). -/
def finiteSamples (vs : List PyVal) : Option (List ℚ) :=
  vs.mapM toRat

/-- `round(100 · √v) = m` for a nonnegative rational `v`, stated without
square roots: the two-decimal rendering of `√v` is `m / 100`. -/
def sqrtRounds2 (v : ℚ) (m : ℤ) : Prop :=
  ((m : ℚ) - 1 / 2) ^ 2 ≤ v * 10000 ∧ v * 10000 < ((m : ℚ) + 1 / 2) ^ 2

instance (v : ℚ) (m : ℤ) : Decidable (sqrtRounds2 v m) := by
  unfold sqrtRounds2; infer_instance

/-- Observable outcome of `main`: usage error, file-access error (an
unhandled exception), the "No valid data found in file." branch, or the
printed results carrying the parsed samples. -/
inductive MainResult where
  | usage
  | fileError
  | noData
  | results (values : List PyVal)
  deriving DecidableEq, Repr

/-- Process exit status of each outcome (an uncaught exception exits 1). -/
def exitCodeOf : MainResult → Nat
  | MainResult.usage => 1
  | MainResult.fileError => 1
  | MainResult.noData => 1
  | MainResult.results _ => 0

/-- First line printed by each outcome (`none`: only a traceback). -/
def firstPrinted : MainResult → Option String
  | MainResult.usage => some "Usage: python3 compute_std.py <metrics_file.txt>"
  | MainResult.fileError => none
  | MainResult.noData => some "No valid data found in file."
  | MainResult.results _ => some "----- Results -----"

/-- Whether the outcome printed the four statistics. -/
def printsStats : MainResult → Bool
  | MainResult.results _ => true
  | _ => false

/-- `main`, over the full argument vector `argv` (program name included,
as in `sys.argv`) and a file system mapping readable paths to their
lines. -/
def mainRun (argv : List String) (fs : String → Option (List String)) :
    MainResult :=
  if argv.length ≠ 2 then MainResult.usage
  else
    match fs (argv.getD 1 "") with
    | none => MainResult.fileError
    | some lines =>
      let values := read_batch_readiness_times lines
      if values.length = 0 then MainResult.noData
      else MainResult.results values

/-- Per-line sample extraction as §3/§4.1 of the spec word it: a line
that is blank after stripping or starts with one of the three markers is
non-data; a data line contributes the `float` of field index 3 exactly
when it has at least 4 comma-separated fields and that field parses. -/
def specLineSample (line : String) : Option PyVal :=
  let l := stripChars line.data
  if l = [] ∨ startsWithChars l "Iteration".data = true ∨
     startsWithChars l "Average Batch".data = true ∨
     startsWithChars l "Final Average".data = true then none
  else if 4 ≤ (splitComma l).length then pyFloatChars ((splitComma l).getD 3 [])
  else none

/-! ### Helper lemmas -/

theorem readLoop_eq_filterMap (lines : List String) :
    ∀ acc : List PyVal, readLoop lines acc = acc ++ lines.filterMap sampleOfLine := by
  induction lines with
  | nil => intro acc; simp [readLoop]
  | cons l rest ih =>
    intro acc
    cases h : sampleOfLine l with
    | some v => simp [readLoop, h, ih, List.filterMap_cons]
    | none => simp [readLoop, h, ih, List.filterMap_cons]

theorem read_eq_filterMap (lines : List String) :
    read_batch_readiness_times lines = lines.filterMap sampleOfLine := by
  simpa [read_batch_readiness_times] using readLoop_eq_filterMap lines []

theorem foldl_min_le_start (xs : List ℚ) : ∀ a : ℚ, xs.foldl min a ≤ a := by
  induction xs with
  | nil => intro a; simp
  | cons x xs ih =>
    intro a
    exact le_trans (ih (min a x)) (min_le_left a x)

theorem foldl_min_le_mem (xs : List ℚ) : ∀ a : ℚ, ∀ y ∈ xs, xs.foldl min a ≤ y := by
  induction xs with
  | nil => intro a y hy; simp at hy
  | cons x xs ih =>
    intro a y hy
    rcases List.mem_cons.1 hy with h | h
    · subst h; exact le_trans (foldl_min_le_start xs (min a y)) (min_le_right a y)
    · exact ih (min a x) y h

theorem foldl_min_mem (xs : List ℚ) : ∀ a : ℚ, xs.foldl min a = a ∨ xs.foldl min a ∈ xs := by
  induction xs with
  | nil => intro a; left; rfl
  | cons x xs ih =>
    intro a
    rcases ih (min a x) with h | h
    · rcases min_choice a x with hax | hax
      · left; rw [List.foldl_cons, h, hax]
      · right; rw [List.foldl_cons, h, hax]; exact List.mem_cons_self x xs
    · right; exact List.mem_cons_of_mem x h

theorem foldl_max_ge_start (xs : List ℚ) : ∀ a : ℚ, a ≤ xs.foldl max a := by
  induction xs with
  | nil => intro a; simp
  | cons x xs ih =>
    intro a
    exact le_trans (le_max_left a x) (ih (max a x))

theorem foldl_max_ge_mem (xs : List ℚ) : ∀ a : ℚ, ∀ y ∈ xs, y ≤ xs.foldl max a := by
  induction xs with
  | nil => intro a y hy; simp at hy
  | cons x xs ih =>
    intro a y hy
    rcases List.mem_cons.1 hy with h | h
    · subst h; exact le_trans (le_max_right a y) (foldl_max_ge_start xs (max a y))
    · exact ih (max a x) y h

theorem foldl_max_mem (xs : List ℚ) : ∀ a : ℚ, xs.foldl max a = a ∨ xs.foldl max a ∈ xs := by
  induction xs with
  | nil => intro a; left; rfl
  | cons x xs ih =>
    intro a
    rcases ih (max a x) with h | h
    · rcases max_choice a x with hax | hax
      · left; rw [List.foldl_cons, h, hax]
      · right; rw [List.foldl_cons, h, hax]; exact List.mem_cons_self x xs
    · right; exact List.mem_cons_of_mem x h

theorem npMin_spec (xs : List ℚ) (m : ℚ) (h : npMin xs = some m) :
    m ∈ xs ∧ ∀ y ∈ xs, m ≤ y := by
  cases xs with
  | nil => simp [npMin] at h
  | cons x xs =>
    have hm : m = xs.foldl min x := by simpa [npMin] using h.symm
    subst hm
    refine ⟨?_, ?_⟩
    · rcases foldl_min_mem xs x with h1 | h1
      · rw [h1]; exact List.mem_cons_self x xs
      · exact List.mem_cons_of_mem x h1
    · intro y hy
      rcases List.mem_cons.1 hy with h1 | h1
      · subst h1; exact foldl_min_le_start xs y
      · exact foldl_min_le_mem xs x y h1

theorem npMax_spec (xs : List ℚ) (m : ℚ) (h : npMax xs = some m) :
    m ∈ xs ∧ ∀ y ∈ xs, y ≤ m := by
  cases xs with
  | nil => simp [npMax] at h
  | cons x xs =>
    have hm : m = xs.foldl max x := by simpa [npMax] using h.symm
    subst hm
    refine ⟨?_, ?_⟩
    · rcases foldl_max_mem xs x with h1 | h1
      · rw [h1]; exact List.mem_cons_self x xs
      · exact List.mem_cons_of_mem x h1
    · intro y hy
      rcases List.mem_cons.1 hy with h1 | h1
      · subst h1; exact foldl_max_ge_start xs y
      · exact foldl_max_ge_mem xs x y h1

theorem sampleOfLine_eq_spec (line : String) :
    sampleOfLine line = specLineSample line := by
  unfold sampleOfLine specLineSample
  by_cases h0 : stripChars line.data = [] <;>
  by_cases h1 : startsWithChars (stripChars line.data) "Iteration".data = true <;>
  by_cases h2 : startsWithChars (stripChars line.data) "Average Batch".data = true <;>
  by_cases h3 : startsWithChars (stripChars line.data) "Final Average".data = true <;>
  by_cases h4 : (splitComma (stripChars line.data)).length < 4 <;>
    (try simp_all [Nat.not_lt]; try rw [if_neg (by omega)])

/-! ### Claim theorems -/

/-- C1: for every file whose parsed sample sequence consists of n ≥ 2
finite values, the statistics `main` prints are the arithmetic mean
(sum divided by n), the sample standard deviation with Bessel's n − 1
denominator (stated on its square: the printed variance times n − 1 is
the sum of squared deviations from the mean), and the exact minimum and
maximum values present in the sequence — each computed from the full
unfiltered sequence. -/
theorem c1_summary_statistics (lines : List String) (xs : List ℚ)
    (hsamples : finiteSamples (read_batch_readiness_times lines) = some xs)
    (hn : 2 ≤ xs.length) :
    npMean xs * (xs.length : ℚ) = xs.sum ∧
    (∃ v, npVarDdof1 xs = some v ∧
      v * ((xs.length : ℚ) - 1) =
        (xs.map (fun x => (x - xs.sum / (xs.length : ℚ)) ^ 2)).sum) ∧
    (∃ m, npMin xs = some m ∧ m ∈ xs ∧ ∀ y ∈ xs, m ≤ y) ∧
    (∃ M, npMax xs = some M ∧ M ∈ xs ∧ ∀ y ∈ xs, y ≤ M) := by
  have hlen0 : ((xs.length : ℚ)) ≠ 0 := by
    have : (0 : ℚ) < (xs.length : ℚ) := by exact_mod_cast Nat.lt_of_lt_of_le Nat.zero_lt_two hn
    exact ne_of_gt this
  have hlen1 : ((xs.length : ℚ) - 1) ≠ 0 := by
    have h2 : (2 : ℚ) ≤ (xs.length : ℚ) := by exact_mod_cast hn
    intro hc
    nlinarith
  refine ⟨?_, ?_, ?_, ?_⟩
  · unfold npMean
    exact div_mul_cancel₀ _ hlen0
  · refine ⟨((xs.map (fun x => (x - npMean xs) ^ 2)).sum) / ((xs.length : ℚ) - 1), ?_, ?_⟩
    · unfold npVarDdof1
      rw [if_pos hn]
    · have hmean : npMean xs = xs.sum / (xs.length : ℚ) := rfl
      simp only [← hmean]
      exact div_mul_cancel₀ _ hlen1
  · cases xs with
    | nil => simp at hn
    | cons x xs0 => exact ⟨_, rfl, npMin_spec (x :: xs0) _ rfl⟩
  · cases xs with
    | nil => simp at hn
    | cons x xs0 => exact ⟨_, rfl, npMax_spec (x :: xs0) _ rfl⟩

theorem c1_summary_statistics_witness :
    finiteSamples (read_batch_readiness_times ["1,100,10,50", "2,200,20,70"])
        = some [50, 70] ∧
    2 ≤ ([50, 70] : List ℚ).length ∧
    (npMean [50, 70] * (([50, 70] : List ℚ).length : ℚ) = ([50, 70] : List ℚ).sum ∧
     (∃ v, npVarDdof1 [50, 70] = some v ∧
       v * ((([50, 70] : List ℚ).length : ℚ) - 1) =
         (([50, 70] : List ℚ).map
           (fun x => (x - ([50, 70] : List ℚ).sum / (([50, 70] : List ℚ).length : ℚ)) ^ 2)).sum) ∧
     (∃ m, npMin [50, 70] = some m ∧ m ∈ ([50, 70] : List ℚ) ∧
        ∀ y ∈ ([50, 70] : List ℚ), m ≤ y) ∧
     (∃ M, npMax [50, 70] = some M ∧ M ∈ ([50, 70] : List ℚ) ∧
        ∀ y ∈ ([50, 70] : List ℚ), y ≤ M)) :=
  ⟨by decide, by decide,
    c1_summary_statistics ["1,100,10,50", "2,200,20,70"] [50, 70] (by decide) (by decide)⟩

/-- C2: `read_batch_readiness_times` returns exactly one sample per
line that is non-skipped, has at least 4 comma-separated fields and a
parseable 4th field — namely the parsed value of field index 3 — in
file order; every other line contributes nothing and parsing of
subsequent lines continues (the result is the filterMap of the per-line
sample extraction, stated through the spec-worded `specLineSample`). -/
theorem c2_parse_filterMap (lines : List String) :
    read_batch_readiness_times lines = lines.filterMap specLineSample := by
  rw [read_eq_filterMap]
  induction lines with
  | nil => rfl
  | cons l rest ih =>
    rw [List.filterMap_cons, List.filterMap_cons, sampleOfLine_eq_spec, ih]

/-- C3: a line that is empty after stripping, or after stripping starts
with "Iteration", "Average Batch" or "Final Average", contributes no
sample, whatever follows the marker: its per-line extraction is `none`
and deleting it from any file leaves the parsed samples unchanged. -/
theorem c3_marker_lines_skipped (line : String)
    (h : stripChars line.data = [] ∨
         startsWithChars (stripChars line.data) "Iteration".data = true ∨
         startsWithChars (stripChars line.data) "Average Batch".data = true ∨
         startsWithChars (stripChars line.data) "Final Average".data = true) :
    sampleOfLine line = none ∧
    ∀ before after : List String,
      read_batch_readiness_times (before ++ line :: after)
        = read_batch_readiness_times (before ++ after) := by
  have hnone : sampleOfLine line = none := by
    rw [sampleOfLine_eq_spec]
    unfold specLineSample
    rw [if_pos h]
  refine ⟨hnone, ?_⟩
  intro before after
  rw [read_eq_filterMap, read_eq_filterMap, List.filterMap_append,
    List.filterMap_append, List.filterMap_cons, hnone]

theorem c3_marker_lines_skipped_witness :
    (startsWithChars (stripChars ("  Iteration 5,1,2,3,4" : String).data)
        "Iteration".data = true) ∧
    sampleOfLine "  Iteration 5,1,2,3,4" = none ∧
    read_batch_readiness_times ["1,2,3,4", "  Iteration 5,1,2,3,4", "5,6,7,8"]
      = read_batch_readiness_times ["1,2,3,4", "5,6,7,8"] :=
  ⟨by decide,
    (c3_marker_lines_skipped "  Iteration 5,1,2,3,4" (Or.inr (Or.inl (by decide)))).1,
    (c3_marker_lines_skipped "  Iteration 5,1,2,3,4"
      (Or.inr (Or.inl (by decide)))).2 ["1,2,3,4"] ["5,6,7,8"]⟩

/-- C4: with exactly one readable file argument, the process exits 0
iff at least one sample was parsed; with zero samples it takes the
dedicated "No valid data found in file." branch with exit status 1,
an outcome distinct from a file-access error. -/
theorem c4_exit_status (prog p : String) (fs : String → Option (List String))
    (lines : List String) (hread : fs p = some lines) :
    (exitCodeOf (mainRun [prog, p] fs) = 0 ↔ read_batch_readiness_times lines ≠ []) ∧
    (read_batch_readiness_times lines ≠ [] →
      mainRun [prog, p] fs = MainResult.results (read_batch_readiness_times lines)) ∧
    (read_batch_readiness_times lines = [] →
      mainRun [prog, p] fs = MainResult.noData ∧
      firstPrinted (mainRun [prog, p] fs) = some "No valid data found in file." ∧
      mainRun [prog, p] fs ≠ MainResult.fileError) := by
  have hm : mainRun [prog, p] fs =
      (if (read_batch_readiness_times lines).length = 0 then MainResult.noData
       else MainResult.results (read_batch_readiness_times lines)) := by
    unfold mainRun
    rw [if_neg (by simp)]
    have hgetD : ([prog, p] : List String).getD 1 "" = p := rfl
    rw [hgetD, hread]
  by_cases hz : read_batch_readiness_times lines = []
  · rw [hm, if_pos (by simp [hz])]
    refine ⟨?_, ?_, ?_⟩
    · simp [exitCodeOf, hz]
    · intro hc; exact absurd hz hc
    · intro _; exact ⟨rfl, rfl, by simp⟩
  · rw [hm, if_neg (by simpa [List.length_eq_zero] using hz)]
    refine ⟨?_, ?_, ?_⟩
    · simp [exitCodeOf, hz]
    · intro _; rfl
    · intro hc; exact absurd hc hz

theorem c4_exit_status_witness :
    ((fun _ : String => some (["Iteration 1", "Average Batch Time: 50"] : List String)) "f"
        = some ["Iteration 1", "Average Batch Time: 50"]) ∧
    ((exitCodeOf (mainRun ["compute_std.py", "f"]
        (fun _ => some ["Iteration 1", "Average Batch Time: 50"])) = 0 ↔
      read_batch_readiness_times ["Iteration 1", "Average Batch Time: 50"] ≠ []) ∧
     (read_batch_readiness_times ["Iteration 1", "Average Batch Time: 50"] ≠ [] →
       mainRun ["compute_std.py", "f"] (fun _ => some ["Iteration 1", "Average Batch Time: 50"])
         = MainResult.results (read_batch_readiness_times ["Iteration 1", "Average Batch Time: 50"])) ∧
     (read_batch_readiness_times ["Iteration 1", "Average Batch Time: 50"] = [] →
       mainRun ["compute_std.py", "f"] (fun _ => some ["Iteration 1", "Average Batch Time: 50"])
         = MainResult.noData ∧
       firstPrinted (mainRun ["compute_std.py", "f"]
         (fun _ => some ["Iteration 1", "Average Batch Time: 50"]))
         = some "No valid data found in file." ∧
       mainRun ["compute_std.py", "f"] (fun _ => some ["Iteration 1", "Average Batch Time: 50"])
         ≠ MainResult.fileError)) :=
  ⟨rfl, c4_exit_status "compute_std.py" "f"
    (fun _ => some ["Iteration 1", "Average Batch Time: 50"])
    ["Iteration 1", "Average Batch Time: 50"] rfl⟩

/-- C5: when the argument vector does not hold exactly one file path
(its length with the program name is not 2), `main` prints the usage
message and exits 1, and the outcome does not depend on the file system
at all — no file access occurs. -/
theorem c5_usage_no_file_access (argv : List String)
    (fs gs : String → Option (List String)) (h : argv.length ≠ 2) :
    mainRun argv fs = MainResult.usage ∧
    exitCodeOf (mainRun argv fs) = 1 ∧
    firstPrinted (mainRun argv fs)
      = some "Usage: python3 compute_std.py <metrics_file.txt>" ∧
    mainRun argv fs = mainRun argv gs := by
  have h1 : mainRun argv fs = MainResult.usage := by
    unfold mainRun; rw [if_pos h]
  have h2 : mainRun argv gs = MainResult.usage := by
    unfold mainRun; rw [if_pos h]
  exact ⟨h1, by rw [h1]; rfl, by rw [h1]; rfl, by rw [h1, h2]⟩

theorem c5_usage_no_file_access_witness :
    (([] : List String).length ≠ 2) ∧
    (mainRun [] (fun _ => none) = MainResult.usage ∧
     exitCodeOf (mainRun [] (fun _ => none)) = 1 ∧
     firstPrinted (mainRun [] (fun _ => none))
       = some "Usage: python3 compute_std.py <metrics_file.txt>" ∧
     mainRun [] (fun _ => none) = mainRun [] (fun _ => some ["1,2,3,4"])) :=
  ⟨by decide, c5_usage_no_file_access [] (fun _ => none) (fun _ => some ["1,2,3,4"]) (by decide)⟩

/-- C6: on the file "1,100,10,50\n2,200,20,70\n" the parsed samples are
[50.0, 70.0] and the printed statistics are mean 60.00, std 14.14
(√200 rounded to two decimals is 14.14), min 50.00 and max 70.00, with
exit status 0. -/
theorem c6_example_run :
    read_batch_readiness_times (pyLines "1,100,10,50\n2,200,20,70\n")
      = [PyVal.finite 50, PyVal.finite 70] ∧
    finiteSamples [PyVal.finite 50, PyVal.finite 70] = some [50, 70] ∧
    npMean [50, 70] = 60 ∧
    npVarDdof1 [50, 70] = some 200 ∧
    sqrtRounds2 200 1414 ∧
    npMin [50, 70] = some 50 ∧
    npMax [50, 70] = some 70 ∧
    mainRun ["compute_std.py", "metrics.txt"]
        (fun _ => some (pyLines "1,100,10,50\n2,200,20,70\n"))
      = MainResult.results [PyVal.finite 50, PyVal.finite 70] := by
  refine ⟨by decide, by decide, ?_, ?_, ?_, ?_, ?_, by decide⟩
  · norm_num [npMean]
  · norm_num [npVarDdof1, npMean]
  · constructor <;> norm_num
  · norm_num [npMin, min_def]
  · norm_num [npMax, max_def]

/-- C7: parsing is deterministic — two results of
`read_batch_readiness_times` on the same file contents are identical,
in length and element for element. -/
theorem c7_parse_deterministic (lines : List String) (r1 r2 : List PyVal)
    (h1 : r1 = read_batch_readiness_times lines)
    (h2 : r2 = read_batch_readiness_times lines) :
    r1 = r2 ∧ r1.length = r2.length ∧ ∀ i : ℕ, r1.get? i = r2.get? i := by
  subst h1; subst h2
  exact ⟨rfl, rfl, fun _ => rfl⟩

theorem c7_parse_deterministic_witness :
    ([PyVal.finite 50] = read_batch_readiness_times ["1,100,10,50"]) ∧
    ([PyVal.finite 50] = ([PyVal.finite 50] : List PyVal) ∧
     ([PyVal.finite 50] : List PyVal).length = ([PyVal.finite 50] : List PyVal).length ∧
     ∀ i : ℕ, ([PyVal.finite 50] : List PyVal).get? i = ([PyVal.finite 50] : List PyVal).get? i) :=
  ⟨by decide,
    c7_parse_deterministic ["1,100,10,50"] [PyVal.finite 50] [PyVal.finite 50]
      (by decide) (by decide)⟩

/-- C8: a file yielding exactly one sample passes the zero-sample check:
`main` prints the four statistics and exits 0, while the sample standard
deviation with denominator n − 1 = 0 is undefined (NaN, modelled by
`npVarDdof1` returning `none` on singletons). -/
theorem c8_single_sample_nan_std (prog p : String)
    (fs : String → Option (List String)) (lines : List String) (v : PyVal)
    (hread : fs p = some lines)
    (hone : read_batch_readiness_times lines = [v]) :
    mainRun [prog, p] fs = MainResult.results [v] ∧
    exitCodeOf (mainRun [prog, p] fs) = 0 ∧
    printsStats (mainRun [prog, p] fs) = true ∧
    ∀ q : ℚ, npVarDdof1 [q] = none := by
  have hm : mainRun [prog, p] fs = MainResult.results [v] := by
    unfold mainRun
    rw [if_neg (by simp)]
    have hgetD : ([prog, p] : List String).getD 1 "" = p := rfl
    rw [hgetD, hread]
    simp [hone]
  refine ⟨hm, by rw [hm]; rfl, by rw [hm]; rfl, ?_⟩
  intro q
  unfold npVarDdof1
  rw [if_neg (by simp)]

theorem c8_single_sample_nan_std_witness :
    ((fun _ : String => some (["1,10,1,5"] : List String)) "f" = some ["1,10,1,5"]) ∧
    read_batch_readiness_times ["1,10,1,5"] = [PyVal.finite 5] ∧
    (mainRun ["compute_std.py", "f"] (fun _ => some ["1,10,1,5"])
       = MainResult.results [PyVal.finite 5] ∧
     exitCodeOf (mainRun ["compute_std.py", "f"] (fun _ => some ["1,10,1,5"])) = 0 ∧
     printsStats (mainRun ["compute_std.py", "f"] (fun _ => some ["1,10,1,5"])) = true ∧
     ∀ q : ℚ, npVarDdof1 [q] = none) :=
  ⟨rfl, by decide,
    c8_single_sample_nan_std "compute_std.py" "f" (fun _ => some ["1,10,1,5"])
      ["1,10,1,5"] (PyVal.finite 5) rfl (by decide)⟩

/-- C9: a non-skipped line with more than 4 comma-separated fields still
contributes the sample parsed from field index 3; the fields beyond the
fourth play no part in the extracted value. -/
theorem c9_extra_fields_ignored (line : String) (v : PyVal)
    (hne : stripChars line.data ≠ [])
    (hi : startsWithChars (stripChars line.data) "Iteration".data = false)
    (ha : startsWithChars (stripChars line.data) "Average Batch".data = false)
    (hf : startsWithChars (stripChars line.data) "Final Average".data = false)
    (hlen : 4 < (splitComma (stripChars line.data)).length)
    (hv : pyFloatChars ((splitComma (stripChars line.data)).getD 3 []) = some v) :
    sampleOfLine line = some v := by
  unfold sampleOfLine
  rw [if_neg (by simp [hne, hi]), if_neg (by simp [ha, hf]),
    if_neg (by omega), hv]

theorem c9_extra_fields_ignored_witness :
    stripChars ("1,2,3,4,5,6" : String).data ≠ [] ∧
    startsWithChars (stripChars ("1,2,3,4,5,6" : String).data) "Iteration".data = false ∧
    startsWithChars (stripChars ("1,2,3,4,5,6" : String).data) "Average Batch".data = false ∧
    startsWithChars (stripChars ("1,2,3,4,5,6" : String).data) "Final Average".data = false ∧
    4 < (splitComma (stripChars ("1,2,3,4,5,6" : String).data)).length ∧
    pyFloatChars ((splitComma (stripChars ("1,2,3,4,5,6" : String).data)).getD 3 [])
      = some (PyVal.finite 4) ∧
    sampleOfLine "1,2,3,4,5,6" = some (PyVal.finite 4) :=
  ⟨by decide, by decide, by decide, by decide, by decide, by decide,
    c9_extra_fields_ignored "1,2,3,4,5,6" (PyVal.finite 4)
      (by decide) (by decide) (by decide) (by decide) (by decide) (by decide)⟩

/-- C10: the 4th field is parsed with general floating-point parsing:
"inf", "nan", exponent forms like "1e3" and whitespace-surrounded
decimals all yield samples, so non-finite values can enter the sample
sequence and reach the statistics (the non-finite sample is carried into
the `results` outcome with exit status 0). -/
theorem c10_general_float_tokens :
    sampleOfLine "1,2,3,inf" = some PyVal.inf ∧
    sampleOfLine "1,2,3,nan" = some PyVal.nan ∧
    sampleOfLine "1,2,3,1e3" = some (PyVal.finite 1000) ∧
    sampleOfLine "1,2,3,\t50 ,x" = some (PyVal.finite 50) ∧
    read_batch_readiness_times ["1,2,3,inf"] = [PyVal.inf] ∧
    mainRun ["compute_std.py", "f"] (fun _ => some ["1,2,3,inf"])
      = MainResult.results [PyVal.inf] ∧
    exitCodeOf (MainResult.results [PyVal.inf]) = 0 := by
  refine ⟨by decide, by decide, ?_, by decide, by decide, by decide, by decide⟩
  have h : sampleOfLine "1,2,3,1e3"
      = some (PyVal.finite (((1 : ℕ) : ℚ) * ((10 ^ 3 : ℕ) : ℚ))) := rfl
  rw [h]
  norm_num

end ComputeStd
